import Mathlib

/-!
# Verification of the StudyMate QA engine (`qa_engine.py`)

A shallow embedding of the QA engine's local answering pipeline and its
orchestration, together with proofs of the specified properties.

Python strings are modelled as `List Char` (`Str`), restricted to the ASCII
behaviour the engine relies on.  Pure string-processing functions become Lean
functions of the same name; the two process-wide mutable globals (the compiled
pattern cache and the remote-client handle) become explicit state-passing
functions; the remote Watsonx call, which is external I/O, is a parameter: its
outcome is an `Except` value where `Except.error e` models an exception with
message `e` propagating out of the call.
-/

/-- Python strings, modelled as lists of characters. -/
abbrev Str := List Char

/-- A sentence-terminator character, the regex class `[.!?]`. -/
def sentencePunct (c : Char) : Bool :=
  c = '.' || c = '!' || c = '?'

/-- ASCII whitespace as recognised by Python's `str.strip()` / `str.split()`
(space, tab, newline, carriage return, vertical tab, form feed). -/
def isSpaceChar (c : Char) : Bool :=
  c = ' ' || c = '\t' || c = '\n' || c = '\r' || c = '\x0b' || c = '\x0c'

/-- Python `s.strip()`: remove leading and trailing whitespace. -/
def strip (s : Str) : Str :=
  ((s.dropWhile isSpaceChar).reverse.dropWhile isSpaceChar).reverse

/-- An ASCII letter, the regex class `[a-zA-Z]`. -/
def isAlphaChar (c : Char) : Bool :=
  ('a' ≤ c && c ≤ 'z') || ('A' ≤ c && c ≤ 'Z')

/-- A regex word character (`\w`, ASCII): letter, digit or underscore.
Used to decide where the word boundary `\b` holds. -/
def isWordChar (c : Char) : Bool :=
  isAlphaChar c || ('0' ≤ c && c ≤ '9') || c = '_'

/-- Python `str.lower()` on one character (ASCII range). -/
def lowerChar (c : Char) : Char :=
  if 'A' ≤ c && c ≤ 'Z' then Char.ofNat (c.toNat + 32) else c

/-- Python `str.lower()` (ASCII range). -/
def lower (s : Str) : Str :=
  s.map lowerChar

/-- Python `n in h` on strings: `isPrefixOfStr n h` is `h.startswith(n)`. -/
def isPrefixOfStr : Str → Str → Bool
  | [], _ => true
  | _ :: _, [] => false
  | a :: as, b :: bs => a = b && isPrefixOfStr as bs

/-- Python `n in h` on strings: substring containment. -/
def substrIn (n : Str) : Str → Bool
  | [] => isPrefixOfStr n []
  | c :: t => isPrefixOfStr n (c :: t) || substrIn n t

/-- Worker for `splitSentences`: `acc` is the current piece (reversed),
`afterPunct` records that the previous character was a terminator, so further
terminators extend the same separator run instead of producing empty pieces. -/
def splitSentencesAux : Str → Str → Bool → List Str
  | [], acc, _ => [acc.reverse]
  | c :: cs, acc, afterPunct =>
    if sentencePunct c then
      if afterPunct then splitSentencesAux cs acc true
      else acc.reverse :: splitSentencesAux cs [] true
    else splitSentencesAux cs (c :: acc) false

/-- `re.split(r'[.!?]+', s)`: split on maximal runs of sentence terminators.
Like Python, produces (possibly empty) pieces before the first and after the
last separator run. -/
def splitSentences (s : Str) : List Str :=
  splitSentencesAux s [] false

/-- Worker for `findWords`: `run` is the current letter run (reversed);
`ok` records whether that run started at a word boundary (start of string or
right after a non-word character).  A finished run is emitted when it has
length at least 4 and also ends at a word boundary. -/
def findWordsAux : Str → Str → Bool → List Str
  | [], run, ok =>
    if ok && 4 ≤ run.length then [run.reverse] else []
  | c :: cs, run, ok =>
    if isAlphaChar c then findWordsAux cs (c :: run) ok
    else
      (if ok && 4 ≤ run.length && !isWordChar c then [run.reverse] else []) ++
        findWordsAux cs [] (!isWordChar c)

/-- `re.findall(r'\b[a-zA-Z]{4,}\b', s)`: every maximal ASCII-letter run of
length at least 4 whose neighbours (if any) are not word characters. -/
def findWords (s : Str) : List Str :=
  findWordsAux s [] true

/-- Worker for `splitWhitespaceStr`. -/
def splitWsAux : Str → Str → List Str
  | [], acc => if acc.isEmpty then [] else [acc.reverse]
  | c :: cs, acc =>
    if isSpaceChar c then
      (if acc.isEmpty then [] else [acc.reverse]) ++ splitWsAux cs []
    else splitWsAux cs (c :: acc)

/-- Python `s.split()` with no argument: split on whitespace runs, discarding
empty pieces.  The engine only uses its length (a word count). -/
def splitWhitespaceStr (s : Str) : List Str :=
  splitWsAux s []

/-- Python `sep.join(parts)`. -/
def joinStr (sep : Str) : List Str → Str
  | [] => []
  | [s] => s
  | s :: rest => s ++ sep ++ joinStr sep rest

/-- Decimal representation of a number, for f-string interpolation of the
`enumerate` counters. -/
def natToStr (n : Nat) : Str :=
  (Nat.repr n).data

-- sanity checks of the primitives (mirroring Python behaviour)
example : splitSentences ("a..b!".data) = ["a".data, "b".data, [] ] := by decide
example : splitSentences [] = [[]] := by decide
example : strip (" ab ".data) = "ab".data := by decide
example : findWords ("what is photosynthesis?".data) = ["what".data, "photosynthesis".data] := by decide
example : findWords ("abcd1 ab_cdef grand".data) = ["grand".data] := by decide
example : substrIn ("bc".data) ("abcd".data) = true := by decide
example : substrIn ("bd".data) ("abcd".data) = false := by decide
example : lower ("AbC?".data) = "abc?".data := by decide
example : splitWhitespaceStr ("  a bb  ".data) = ["a".data, "bb".data] := by decide
example : joinStr ['\n'] ["a".data, "b".data] = "a\nb".data := by decide

/-! ## Stop-word and cue-phrase tables from `qa_engine.py` -/

/-- The interrogative stop-word set used by `extract_relevant_sentences`. -/
def question_stop_words : List Str :=
  ["what".data, "when".data, "where".data, "who".data, "why".data,
   "how".data, "does".data, "could".data, "would".data, "should".data]

/-- The stop-word set used by `extract_key_terms`. -/
def key_term_stop_words : List Str :=
  ["this".data, "that".data, "these".data, "those".data, "which".data,
   "what".data, "when".data, "where".data, "who".data, "why".data,
   "how".data, "with".data, "from".data, "have".data, "has".data,
   "been".data, "were".data, "are".data, "and".data, "the".data,
   "for".data, "not".data, "but".data, "their".data, "will".data,
   "would".data, "should".data, "could".data, "about".data, "into".data,
   "through".data, "during".data, "before".data, "after".data, "above".data,
   "below".data, "upon".data, "under".data, "while".data, "until".data,
   "then".data, "than".data, "also".data, "more".data, "less".data,
   "most".data, "least".data]

/-- The `definition_patterns` list.  All patterns are literal strings. -/
def definition_patterns : List Str :=
  ["is defined as".data, "refers to".data, "means that".data, "is called".data,
   "known as".data, "can be defined".data, "is essentially".data, "is described as".data]

/-- The `example_patterns` list.  All patterns are literal strings once the
regex escape in `e\.g\.` is resolved to the literal text `e.g.`. -/
def example_patterns : List Str :=
  ["for example".data, "such as".data, "for instance".data, "including".data,
   "like".data, "e.g.".data, "as in".data, "case study".data]

/-- `pattern.search(s)` for a literal pattern compiled with `re.IGNORECASE`:
a case-insensitive substring test. -/
def regexSearchCI (pat s : Str) : Bool :=
  substrIn (lower pat) (lower s)

/-! ## The extractors -/

/-- Worker for first-occurrence deduplication: keep an element when it has not
been seen yet.  Models iteration over the keys of a Python `set` / `Counter`
built from a list (insertion order; for the `set` in
`extract_relevant_sentences` only membership is ever used downstream). -/
def dedupFirstAux (seen : List Str) : List Str → List Str
  | [] => []
  | w :: rest => if w ∈ seen then dedupFirstAux seen rest else w :: dedupFirstAux (w :: seen) rest

/-- The distinct elements of a list, each at its first occurrence. -/
def dedupFirst (l : List Str) : List Str :=
  dedupFirstAux [] l

/-- The question search terms of `extract_relevant_sentences`:
`set(re.findall(r'\b[a-zA-Z]{4,}\b', question.lower()))` minus the
interrogative stop words. -/
def question_terms (question : Str) : List Str :=
  (dedupFirst (findWords (lower question))).filter (fun term => decide (term ∉ question_stop_words))

/-- The scanning loop of `extract_relevant_sentences`: strip each sentence,
keep substantial ones (length > 30) containing some question term, and break
as soon as 8 matches have been collected. -/
def relevantLoop (qterms : List Str) : List Str → List Str → List Str
  | [], acc => acc
  | s :: rest, acc =>
    let s' := strip s
    if 30 < s'.length then
      if qterms.any (fun term => substrIn term (lower s')) then
        if 8 ≤ (acc ++ [s']).length then acc ++ [s']
        else relevantLoop qterms rest (acc ++ [s'])
      else relevantLoop qterms rest acc
    else relevantLoop qterms rest acc

/-- `extract_relevant_sentences(context, question)`. -/
def extract_relevant_sentences (context question : Str) : List Str :=
  let sentences := splitSentences context
  let qterms := question_terms question
  let relevant_sentences := relevantLoop qterms sentences []
  let relevant_sentences :=
    if relevant_sentences.isEmpty then
      ((sentences.filter (fun s => decide (40 < (strip s).length))).map strip).take 6
    else relevant_sentences
  relevant_sentences.take 6

/-- The shared scanning loop of `extract_definitions` and `extract_examples`:
strip each sentence, keep those above `minLen` that match some cue pattern
(first matching cue only), and break as soon as `cap` sentences have been
collected. -/
def cueLoop (pats : List Str) (minLen cap : Nat) : List Str → List Str → List Str
  | [], acc => acc
  | s :: rest, acc =>
    let s' := strip s
    if minLen < s'.length then
      let acc' := if pats.any (fun pat => regexSearchCI pat s') then acc ++ [s'] else acc
      if cap ≤ acc'.length then acc' else cueLoop pats minLen cap rest acc'
    else cueLoop pats minLen cap rest acc

/-- `extract_definitions(context)`. -/
def extract_definitions (context : Str) : List Str :=
  cueLoop definition_patterns 20 3 (splitSentences context) []

/-- `extract_examples(context)`. -/
def extract_examples (context : Str) : List Str :=
  cueLoop example_patterns 30 2 (splitSentences context) []

/-- Stable insertion into a count-descending list: `x` goes in front of the
first element whose count is at most `cnt x`, hence after every
earlier-inserted element of strictly larger count and before every element of
equal or smaller count. -/
def insertByCount (cnt : Str → Nat) (x : Str) : List Str → List Str
  | [] => [x]
  | y :: ys => if cnt y ≤ cnt x then x :: y :: ys else y :: insertByCount cnt x ys

/-- Stable sort by descending count (insertion sort). -/
def sortByCountDesc (cnt : Str → Nat) : List Str → List Str
  | [] => []
  | x :: xs => insertByCount cnt x (sortByCountDesc cnt xs)

/-- `Counter(l).most_common(n)` keys: the `n` most frequent elements of `l`,
most frequent first, ties broken by first occurrence in `l` (Python's
`Counter` keeps insertion order and `most_common` sorts stably by count). -/
def mostCommonKeys (l : List Str) (n : Nat) : List Str :=
  (sortByCountDesc (fun w => l.count w) (dedupFirst l)).take n

/-- `extract_key_terms(text)`. -/
def extract_key_terms (text : Str) : List Str :=
  let words := findWords (lower text)
  let filtered_words := words.filter (fun w => decide (w ∉ key_term_stop_words))
  mostCommonKeys filtered_words 10

-- sanity checks against hand-evaluated Python behaviour
example : extract_key_terms ("energy and energy beats light".data) = ["energy".data, "beats".data, "light".data] := by decide
example : question_terms ("What is photosynthesis?".data) = ["photosynthesis".data] := by decide

/-! ## The answer composers -/

/-- Numbered f-string items built by `enumerate(items, i0)`. -/
def numberedParts (f : Nat → Str → Str) : Nat → List Str → List Str
  | _, [] => []
  | i, s :: rest => f i s :: numberedParts f (i + 1) rest

/-- `format_key_topics(context)`. -/
def format_key_topics (context : Str) : Str :=
  let sentences := splitSentences context
  let substantial_sentences := ((sentences.filter (fun s => decide (50 < (strip s).length))).map strip).take 4
  joinStr ['\n'] (numberedParts (fun i s => natToStr i ++ ". **".data ++ s ++ "**".data) 1 substantial_sentences)

/-- `generate_additional_insights(context, question)` (the `question` argument
is taken and ignored, as in the source). -/
def generate_additional_insights (context _question : Str) : Str :=
  let key_terms := (extract_key_terms context).take 3
  "\n\n## 🔍 Additional Insights:\n\nBased on the context, consider these points:\n\n- The material emphasizes practical applications\n- Key terminology suggests fundamental concepts\n- Content builds on previous knowledge\n\n## 📚 Recommended Next Steps:\n\n1. Create flashcards for: ".data
  ++ (if key_terms.isEmpty then "key terms".data else joinStr (", ".data) key_terms)
  ++ "\n2. Summarize main sections\n3. Identify conceptual connections\n4. Practice explaining concepts".data

/-- `generate_comprehensive_fallback(context, question, key_terms)`: the
no-match composer. -/
def generate_comprehensive_fallback (context question : Str) (key_terms : List Str) : Str :=
  let formatted_topics := format_key_topics context
  "# 📚 Comprehensive Analysis: ".data ++ question
  ++ "\n\n## 🔍 Overview of Your Study Material:\n\nThe content primarily focuses on **".data
  ++ (if key_terms.isEmpty then "key concepts".data else joinStr (", ".data) (key_terms.take 3))
  ++ "**. While I couldn\x27t find direct information about \"".data ++ question
  ++ "\", here\x27s what the material covers:\n\n## 📖 Main Topics Discussed:\n\n".data
  ++ formatted_topics
  ++ "\n\n## 🎯 Suggested Study Approach:\n\n1. **Review foundational concepts** related to the main topics\n2. **Look for connections** between different concepts\n3. **Examine practical applications** mentioned\n4. **Note definitions and terminology** used\n\n## 💡 Potential Related Questions:\n\n- How does ".data
  ++ question ++ " relate to the main concepts?\n- What applications might ".data
  ++ question ++ " have in this context?\n\n## 📝 Recommendation:\n\nReview sections discussing related concepts for indirect references to \"".data
  ++ question ++ "\".".data

/-- `generate_detailed_answer(context, question)`: the local answer composer. -/
def generate_detailed_answer (context question : Str) : Str :=
  let key_terms := extract_key_terms context
  let relevant_sentences := extract_relevant_sentences context question
  if relevant_sentences.isEmpty then
    generate_comprehensive_fallback context question key_terms
  else
    let definitions := if relevant_sentences.length < 6 then extract_definitions context else []
    let examples := if relevant_sentences.length < 8 then extract_examples context else []
    let answer_parts : List Str :=
      ["# 📚 Comprehensive Analysis: ".data ++ question ++ "\n\n## 🔍 Key Findings from Your Study Material:\n\n".data]
      ++ numberedParts (fun i s => "**".data ++ natToStr i ++ ". ".data ++ s ++ "**\n\n".data) 1 (relevant_sentences.take 6)
      ++ (if definitions.isEmpty then [] else
            ["\n## 📖 Important Definitions:\n\n".data]
            ++ numberedParts (fun i d => "**Definition ".data ++ natToStr i ++ ":** ".data ++ d ++ "\n\n".data) 1 (definitions.take 3))
      ++ (if examples.isEmpty then [] else
            ["\n## 💡 Practical Examples:\n\n".data]
            ++ numberedParts (fun i e => "**Example ".data ++ natToStr i ++ ":** ".data ++ e ++ "\n\n".data) 1 (examples.take 2))
      ++ (if key_terms.isEmpty then [] else
            ["\n## 🎯 Key Related Concepts:\n\n".data,
             joinStr (", ".data) ((key_terms.take 5).map (fun term => "**".data ++ term ++ "**".data)),
             "\n\n".data])
      ++ ["\n## 📝 Study Recommendations:\n\n1. **Focus on understanding** the relationships between ".data
          ++ (if key_terms.isEmpty then "these concepts".data else joinStr (", ".data) (key_terms.take 2))
          ++ "\n2. **Review the definitions** and how they apply to different contexts\n3. **Practice with examples** to reinforce your understanding\n4. **Connect these concepts** to broader topics in your field\n\n## 💭 Further Exploration:\n\nFor deeper understanding, consider researching how these concepts relate to real-world applications.".data]
    let answer := joinStr [] answer_parts
    if (splitWhitespaceStr answer).length < 150 then
      answer ++ generate_additional_insights context question
    else answer

/-! ## The remote path and the orchestrator -/

/-- The fixed Mixtral prompt built by `generate_watsonx_answer`. -/
def watsonxPrompt (context question : Str) : Str :=
  "<|system|>\nYou are an academic assistant helping students understand their study materials.\nBased strictly on the provided context, answer the question comprehensively.\nProvide detailed explanations, definitions, and examples when relevant.\nIf the context doesn\x27t contain enough information, say so clearly.\n\nContext from study materials:\n".data
  ++ context ++ "\n</s>\n<|user|>\n".data ++ question ++ "\n</s>\n<|assistant|>".data

/-- `format_watsonx_answer(answer_text, question)`. -/
def format_watsonx_answer (answer_text question : Str) : Str :=
  "# 📚 Comprehensive Analysis: ".data ++ question
  ++ "\n\n## 🔍 Answer from Your Study Material:\n\n".data ++ answer_text
  ++ "\n\n## 💡 Study Tips:\n\n• **Review key concepts** mentioned in the answer\n• **Create flashcards** for important terms\n• **Practice explaining** these concepts in your own words\n• **Connect this information** to what you already know\n\n*Generated using IBM Watsonx with Mixtral-8x7B-Instruct model*".data

/-- `generate_watsonx_answer(context, question)`.  The module-level client
handle is the `client` argument (`none` models Python `None`); the remote
`client.text_generation.create` call is the `api` argument, whose `Except`
outcome models the returned generated text or a raised exception.  The raised
case is caught inside the function (`return None`), so the function itself
never raises: it returns `ok (some formatted)` on success and `ok none`
("fall back to local generation") otherwise. -/
def generate_watsonx_answer {C : Type} (client : Option C) (api : Str → Except Str Str)
    (context question : Str) : Except Str (Option Str) :=
  match client with
  | none => Except.ok none
  | some _ =>
    match api (watsonxPrompt context question) with
    | Except.ok generated_text => Except.ok (some (format_watsonx_answer generated_text question))
    | Except.error _ => Except.ok none

/-- `generate_answer(context_chunks, question)`: the orchestrator.  The whole
remote path (`generate_watsonx_answer`) is the `watsonx` argument; its
`Except.error e` outcome models an exception with message `e` escaping from
the body of the `try` block, which the orchestrator converts into the
terminal error string.  A returned empty string is falsy in Python's
`if watsonx_answer:`, hence also falls back to local composition. -/
def generate_answer (watsonx : Str → Str → Except Str (Option Str))
    (context_chunks : List Str) (question : Str) : Str :=
  let context := joinStr ['\n'] (context_chunks.take 3)
  if context.isEmpty || decide ((strip context).length < 50) then
    "I couldn\x27t extract enough text from the PDF to answer your question. Please try with a different PDF or ensure the document contains readable text.".data
  else
    match watsonx context question with
    | Except.error e => "Error processing your question: ".data ++ e
    | Except.ok (some watsonx_answer) =>
        if watsonx_answer.isEmpty then generate_detailed_answer context question
        else watsonx_answer
    | Except.ok none => generate_detailed_answer context question

/-! ## The process-wide mutable globals -/

/-- One call to `get_watsonx_client`, as a transition on the module-level
`_watsonx_client` handle (`none` models Python `None`, covering both "never
initialized" and "failed initialization").  `attempt` is the outcome of
running the initialization block this call would perform: `some c` if
constructing the client succeeds, `none` if it raises (the `except` branch
assigns `None`).  Returns the getter's result and the new handle. -/
def get_watsonx_client {C : Type} (attempt : Option C) (state : Option C) :
    Option C × Option C :=
  match state with
  | some c => (some c, some c)
  | none =>
    match attempt with
    | some c => (some c, some c)
    | none => (none, none)

/-- The `_pattern_cache` global: compiled patterns keyed by their source
string.  A compiled matcher is modelled as its source string tagged with a
creation counter, so that two distinct compilations of the same string are
distinguishable values (Python object identity). -/
structure PatternCache where
  cache : List (Str × Nat)
  nextId : Nat

/-- Dictionary lookup in the pattern cache. -/
def lookupCache : List (Str × Nat) → Str → Option Nat
  | [], _ => none
  | (q, i) :: rest, p => if q = p then some i else lookupCache rest p

/-- One call to `get_cached_pattern(pattern)`: return the cached compiled
matcher if present, otherwise compile a fresh one (a new creation counter),
store it and return it. -/
def get_cached_pattern (p : Str) (st : PatternCache) : (Str × Nat) × PatternCache :=
  match lookupCache st.cache p with
  | some i => ((p, i), st)
  | none => ((p, st.nextId), ⟨st.cache ++ [(p, st.nextId)], st.nextId + 1⟩)

/-- A sequence of `get_cached_pattern` calls (any operation that uses the
cache is such a sequence), returning the final cache state. -/
def runPatternCalls (ps : List Str) (st : PatternCache) : PatternCache :=
  ps.foldl (fun s q => (get_cached_pattern q s).2) st

/-! ## Derived sentence lists (used to state the specifications) -/

/-- The stripped substantial sentences (length > 30) of `context` that contain
some question term as a substring of their lower-cased text, in document
order: the sentences the matching path of `extract_relevant_sentences`
scans for. -/
def matchedSentences (context question : Str) : List Str :=
  ((splitSentences context).map strip).filter
    (fun s => decide (30 < s.length) && (question_terms question).any (fun term => substrIn term (lower s)))

/-- The zero-match fallback list of `extract_relevant_sentences`: the first
at most 6 stripped sentences of trimmed length > 40, in document order. -/
def fallbackSentences (context : Str) : List Str :=
  (((splitSentences context).filter (fun s => decide (40 < (strip s).length))).map strip).take 6

/-- The stripped sentences of `context` above `minLen` that match some cue
pattern of `pats` case-insensitively, in document order. -/
def cueMatchedSentences (pats : List Str) (minLen : Nat) (context : Str) : List Str :=
  ((splitSentences context).map strip).filter
    (fun s => decide (minLen < s.length) && pats.any (fun pat => regexSearchCI pat s))

/-- The index of the first occurrence of `t` in `l` (Python `list.index`);
used to state first-occurrence tie-breaking. -/
def idxOfStr : List Str → Str → Nat
  | [], _ => 0
  | w :: rest, t => if w = t then 0 else idxOfStr rest t + 1

/-- The qualifying tokens of `extract_key_terms`: every length-≥-4 alphabetic
word of the lower-cased text that is not a stop word, with multiplicity, in
document order. -/
def filteredWords (text : Str) : List Str :=
  (findWords (lower text)).filter (fun w => decide (w ∉ key_term_stop_words))

/-! ## Concrete inputs from the specification's worked example -/

/-- The example context of the specification. -/
def psContext : Str :=
  "Photosynthesis is defined as the process by which plants convert light into energy. For example, sunflowers track the sun.".data

/-- The example question of the specification. -/
def psQuestion : Str :=
  "What is photosynthesis?".data

/-- The first sentence of the example context, as split and stripped. -/
def psFirstSentence : Str :=
  "Photosynthesis is defined as the process by which plants convert light into energy".data

/-- The second sentence of the example context, as split and stripped. -/
def psSecondSentence : Str :=
  "For example, sunflowers track the sun".data

/-! ## Basic lemmas about the string primitives -/

theorem char_le_iff_toNat {a b : Char} : a ≤ b ↔ a.toNat ≤ b.toNat := by
  rw [Char.le_def, UInt32.le_def, BitVec.le_def]; rfl

theorem toNat_ofNat_valid {n : Nat} (h : n.isValidChar) : (Char.ofNat n).toNat = n := by
  simp [Char.ofNat, h, Char.toNat, Char.ofNatAux, UInt32.toNat, BitVec.toNat_ofNatLt]

theorem dropWhile_idem {α : Type} (p : α → Bool) (l : List α) :
    (l.dropWhile p).dropWhile p = l.dropWhile p := by
  induction l with
  | nil => rfl
  | cons a t ih =>
    rw [List.dropWhile_cons]
    by_cases h : p a = true
    · rw [if_pos h]; exact ih
    · rw [if_neg h, List.dropWhile_cons, if_neg h]

theorem dropWhile_eq_self_of_head {α : Type} {p : α → Bool} {l : List α} {x : α}
    (hx : l.head? = some x) (hpx : p x = false) : l.dropWhile p = l := by
  cases l with
  | nil => rfl
  | cons c t =>
    simp only [List.head?_cons, Option.some.injEq] at hx
    rw [List.dropWhile_cons, if_neg (by rw [hx]; simp [hpx])]

theorem head_not_of_dropWhile_self {α : Type} {p : α → Bool} {l : List α} {x : α}
    (hl : l.dropWhile p = l) (hx : l.head? = some x) : p x = false := by
  cases l with
  | nil => simp at hx
  | cons c t =>
    simp only [List.head?_cons, Option.some.injEq] at hx
    rw [List.dropWhile_cons] at hl
    by_cases h : p c = true
    · rw [if_pos h] at hl
      have h1 : (List.dropWhile p t).length ≤ t.length := (List.dropWhile_suffix p).sublist.length_le
      have h2 := congrArg List.length hl
      simp at h2; omega
    · rw [← hx]; simpa using h

theorem dropWhile_reverse_self {α : Type} {p : α → Bool} {a : List α}
    (ha : a.dropWhile p = a) :
    ((a.reverse.dropWhile p).reverse).dropWhile p = (a.reverse.dropWhile p).reverse := by
  cases hb : a.reverse.dropWhile p with
  | nil => simp
  | cons x xs =>
    obtain ⟨t, ht⟩ : List.dropWhile p a.reverse <:+ a.reverse := List.dropWhile_suffix p
    rw [hb] at ht
    have hlast : (x :: xs).getLast? = a.head? := by
      have h3 := congrArg List.getLast? ht
      rw [List.getLast?_append, List.getLast?_reverse] at h3
      rcases hgl : (x :: xs).getLast? with _ | y
      · simp [List.getLast?_eq_none_iff] at hgl
      · rw [hgl] at h3
        rw [← h3]
        rfl
    rcases hhd : a.head? with _ | y
    · rw [hhd] at hlast
      simp at hlast
    · rw [hhd] at hlast
      have hpy : p y = false := head_not_of_dropWhile_self ha hhd
      apply dropWhile_eq_self_of_head _ hpy
      rw [List.head?_reverse, hlast]

theorem strip_strip (s : Str) : strip (strip s) = strip s := by
  unfold strip
  have ha : (s.dropWhile isSpaceChar).dropWhile isSpaceChar = s.dropWhile isSpaceChar :=
    dropWhile_idem _ _
  rw [dropWhile_reverse_self ha, List.reverse_reverse, dropWhile_idem]

theorem strip_length_eq (s : Str) : (strip (strip s)).length = (strip s).length := by
  rw [strip_strip]

/-! ## Characterizing the scanning loops -/

theorem relevantLoop_eq (qterms : List Str) (sents : List Str) :
    ∀ acc : List Str, acc.length < 8 →
      relevantLoop qterms sents acc =
        acc ++ ((sents.map strip).filter
          (fun s => decide (30 < s.length) && qterms.any (fun term => substrIn term (lower s)))).take
            (8 - acc.length) := by
  induction sents with
  | nil => intro acc _; simp [relevantLoop]
  | cons s rest ih =>
    intro acc hacc
    rw [relevantLoop]
    simp only [List.map_cons, List.filter_cons]
    by_cases h1 : 30 < (strip s).length
    · by_cases h2 : qterms.any (fun term => substrIn term (lower (strip s))) = true
      · rw [if_pos (by simpa using h1)]
        rw [if_pos h2]
        simp only [decide_eq_true h1, h2, Bool.and_self, if_pos]
        obtain ⟨k, hk⟩ : ∃ k, 8 - acc.length = k + 1 := ⟨7 - acc.length, by omega⟩
        rw [hk, List.take_succ_cons]
        by_cases h3 : 8 ≤ (acc ++ [strip s]).length
        · rw [if_pos h3]
          simp only [List.length_append, List.length_cons, List.length_nil] at h3
          have hk0 : k = 0 := by omega
          simp [hk0]
        · rw [if_neg h3]
          simp only [List.length_append, List.length_cons, List.length_nil] at h3
          rw [ih (acc ++ [strip s]) (by simp; omega)]
          have : 8 - (acc ++ [strip s]).length = k := by simp; omega
          rw [this]
          simp
      · rw [if_pos (by simpa using h1)]
        rw [if_neg h2]
        have hp : (decide (30 < (strip s).length) &&
            qterms.any (fun term => substrIn term (lower (strip s)))) = false := by
          simp only [Bool.and_eq_false_iff]
          right; simpa using h2
        rw [hp, if_neg (by simp)]
        exact ih acc hacc
    · rw [if_neg (by simpa using h1)]
      have hp : (decide (30 < (strip s).length) &&
          qterms.any (fun term => substrIn term (lower (strip s)))) = false := by
        simp only [Bool.and_eq_false_iff]
        left; simpa using h1
      rw [hp, if_neg (by simp)]
      exact ih acc hacc

theorem cueLoop_eq (pats : List Str) (minLen cap : Nat) (sents : List Str) :
    ∀ acc : List Str, acc.length < cap →
      cueLoop pats minLen cap sents acc =
        acc ++ ((sents.map strip).filter
          (fun s => decide (minLen < s.length) && pats.any (fun pat => regexSearchCI pat s))).take
            (cap - acc.length) := by
  induction sents with
  | nil => intro acc _; simp [cueLoop]
  | cons s rest ih =>
    intro acc hacc
    rw [cueLoop]
    simp only [List.map_cons, List.filter_cons]
    by_cases h1 : minLen < (strip s).length
    · rw [if_pos (by simpa using h1)]
      by_cases h2 : pats.any (fun pat => regexSearchCI pat (strip s)) = true
      · rw [if_pos h2]
        simp only [decide_eq_true h1, h2, Bool.and_self, if_pos]
        obtain ⟨k, hk⟩ : ∃ k, cap - acc.length = k + 1 := ⟨cap - acc.length - 1, by omega⟩
        rw [hk, List.take_succ_cons]
        by_cases h3 : cap ≤ (acc ++ [strip s]).length
        · rw [if_pos h3]
          simp only [List.length_append, List.length_cons, List.length_nil] at h3
          have hk0 : k = 0 := by omega
          simp [hk0]
        · rw [if_neg h3]
          simp only [List.length_append, List.length_cons, List.length_nil] at h3
          rw [ih (acc ++ [strip s]) (by simp; omega)]
          have : cap - (acc ++ [strip s]).length = k := by simp; omega
          rw [this]
          simp
      · rw [if_neg h2]
        rw [if_neg (by omega)]
        have hp : (decide (minLen < (strip s).length) &&
            pats.any (fun pat => regexSearchCI pat (strip s))) = false := by
          simp only [Bool.and_eq_false_iff]
          right; simpa using h2
        rw [hp, if_neg (by simp)]
        exact ih acc hacc
    · rw [if_neg (by simpa using h1)]
      have hp : (decide (minLen < (strip s).length) &&
          pats.any (fun pat => regexSearchCI pat (strip s))) = false := by
        simp only [Bool.and_eq_false_iff]
        left; simpa using h1
      rw [hp, if_neg (by simp)]
      exact ih acc hacc

theorem take8_isEmpty (l : List Str) : (l.take 8).isEmpty = l.isEmpty := by
  cases l <;> simp

theorem take6_branch (m f : List Str) :
    (if (m.take 8).isEmpty then f.take 6 else m.take 8).take 6 =
      if m.isEmpty then f.take 6 else (m.take 8).take 6 := by
  cases m <;> simp [List.take_take]

theorem extract_relevant_sentences_eq (context question : Str) :
    extract_relevant_sentences context question =
      if (matchedSentences context question).isEmpty then fallbackSentences context
      else ((matchedSentences context question).take 8).take 6 := by
  simp only [extract_relevant_sentences]
  rw [relevantLoop_eq _ _ [] (by simp)]
  simp only [List.nil_append, List.length_nil, Nat.sub_zero]
  rw [take6_branch]
  rfl

theorem extract_definitions_eq (context : Str) :
    extract_definitions context = (cueMatchedSentences definition_patterns 20 context).take 3 := by
  simp only [extract_definitions, cueMatchedSentences]
  rw [cueLoop_eq _ _ _ _ [] (by simp)]
  simp

theorem extract_examples_eq (context : Str) :
    extract_examples context = (cueMatchedSentences example_patterns 30 context).take 2 := by
  simp only [extract_examples, cueMatchedSentences]
  rw [cueLoop_eq _ _ _ _ [] (by simp)]
  simp

theorem mem_matchedSentences {context question : Str} {s : Str}
    (hs : s ∈ matchedSentences context question) : 30 < s.length ∧ strip s = s := by
  unfold matchedSentences at hs
  rw [List.mem_filter] at hs
  obtain ⟨hmem, hp⟩ := hs
  rw [List.mem_map] at hmem
  obtain ⟨t, _, rfl⟩ := hmem
  simp only [Bool.and_eq_true, decide_eq_true_eq] at hp
  exact ⟨hp.1, strip_strip t⟩

theorem mem_fallbackSentences {context : Str} {s : Str}
    (hs : s ∈ fallbackSentences context) : 40 < s.length ∧ strip s = s := by
  unfold fallbackSentences at hs
  have hs' := List.mem_of_mem_take hs
  rw [List.mem_map] at hs'
  obtain ⟨t, ht, rfl⟩ := hs'
  rw [List.mem_filter] at ht
  have h40 : 40 < (strip t).length := by simpa using ht.2
  exact ⟨h40, strip_strip t⟩

theorem mem_cueMatchedSentences {pats : List Str} {minLen : Nat} {context : Str} {s : Str}
    (hs : s ∈ cueMatchedSentences pats minLen context) :
    minLen < s.length ∧ strip s = s ∧ pats.any (fun pat => regexSearchCI pat s) = true := by
  unfold cueMatchedSentences at hs
  rw [List.mem_filter] at hs
  obtain ⟨hmem, hp⟩ := hs
  rw [List.mem_map] at hmem
  obtain ⟨t, _, rfl⟩ := hmem
  simp only [Bool.and_eq_true, decide_eq_true_eq] at hp
  exact ⟨hp.1, strip_strip t, hp.2⟩

theorem matchedSentences_eq_nil_of_noterm {context question : Str}
    (h : ∀ s ∈ splitSentences context, ∀ term ∈ question_terms question,
      substrIn term (lower (strip s)) = false) :
    matchedSentences context question = [] := by
  unfold matchedSentences
  rw [List.filter_eq_nil_iff]
  intro a ha
  rw [List.mem_map] at ha
  obtain ⟨t, ht, rfl⟩ := ha
  rw [Bool.not_eq_true, Bool.and_eq_false_iff]
  right
  rw [List.any_eq_false]
  intro term hterm
  rw [h t ht term hterm]
  simp

/-- C4: `extract_relevant_sentences` returns at most 6 sentences, each of
trimmed length > 30; if no sentence of the context contains any question term
(the zero-match case), every returned sentence instead has trimmed
length > 40 and the result is the zero-match fallback list (the first at most
6 such sentences in document order); and on the matching path the scan stops
after the first 8 matching sentences and the first 6 of those are returned. -/
theorem extract_relevant_sentences_spec (context question : Str) :
    (extract_relevant_sentences context question).length ≤ 6 ∧
    (∀ s ∈ extract_relevant_sentences context question, 30 < (strip s).length) ∧
    ((∀ s ∈ splitSentences context, ∀ term ∈ question_terms question,
        substrIn term (lower (strip s)) = false) →
      (∀ s ∈ extract_relevant_sentences context question, 40 < (strip s).length) ∧
      extract_relevant_sentences context question = fallbackSentences context) ∧
    (matchedSentences context question ≠ [] →
      extract_relevant_sentences context question =
        ((matchedSentences context question).take 8).take 6) := by
  rw [extract_relevant_sentences_eq]
  by_cases hM : matchedSentences context question = []
  · rw [if_pos (by simp [List.isEmpty_iff, hM])]
    refine ⟨?_, ?_, ?_, ?_⟩
    · unfold fallbackSentences
      exact List.length_take_le _ _
    · intro s hs
      obtain ⟨h40, hstr⟩ := mem_fallbackSentences hs
      rw [hstr]; omega
    · intro _
      refine ⟨?_, rfl⟩
      intro s hs
      obtain ⟨h40, hstr⟩ := mem_fallbackSentences hs
      rw [hstr]; exact h40
    · intro hne
      exact absurd hM hne
  · rw [if_neg (by simp [List.isEmpty_iff, hM])]
    refine ⟨List.length_take_le _ _, ?_, ?_, fun _ => rfl⟩
    · intro s hs
      have hmem : s ∈ matchedSentences context question :=
        List.mem_of_mem_take (List.mem_of_mem_take hs)
      obtain ⟨h30, hstr⟩ := mem_matchedSentences hmem
      rw [hstr]; exact h30
    · intro h
      exact absurd (matchedSentences_eq_nil_of_noterm h) hM

/-- Witness for `extract_relevant_sentences_spec`: a concrete zero-match
context and question, on which the fallback list is returned. -/
theorem extract_relevant_sentences_spec_witness :
    (extract_relevant_sentences
      ("This long opening sentence certainly has more than forty letters in it. Tiny bit.".data)
      ("Anything about zebras?".data)).length ≤ 6 ∧
    extract_relevant_sentences
      ("This long opening sentence certainly has more than forty letters in it. Tiny bit.".data)
      ("Anything about zebras?".data) =
      fallbackSentences
        ("This long opening sentence certainly has more than forty letters in it. Tiny bit.".data) := by
  have h := extract_relevant_sentences_spec
    ("This long opening sentence certainly has more than forty letters in it. Tiny bit.".data)
    ("Anything about zebras?".data)
  exact ⟨h.1, (h.2.2.1 (by decide)).2⟩

/-- C6: `extract_definitions` returns at most 3 sentences and
`extract_examples` at most 2; each returned sentence exceeds the minimum
trimmed length (20 for definitions, 30 for examples) and matches at least one
cue phrase case-insensitively; and each result equals the first `cap`
cue-matching stripped sentences in document order (so each sentence occurrence
is counted at most once, on its first matching cue, and collection stops as
soon as the cap is reached). -/
theorem extract_definitions_examples_spec (context : Str) :
    (extract_definitions context).length ≤ 3 ∧
    (extract_examples context).length ≤ 2 ∧
    (∀ s ∈ extract_definitions context, 20 < (strip s).length ∧
      definition_patterns.any (fun pat => regexSearchCI pat s) = true) ∧
    (∀ s ∈ extract_examples context, 30 < (strip s).length ∧
      example_patterns.any (fun pat => regexSearchCI pat s) = true) ∧
    extract_definitions context = (cueMatchedSentences definition_patterns 20 context).take 3 ∧
    extract_examples context = (cueMatchedSentences example_patterns 30 context).take 2 := by
  refine ⟨?_, ?_, ?_, ?_, extract_definitions_eq context, extract_examples_eq context⟩
  · rw [extract_definitions_eq]
    exact List.length_take_le _ _
  · rw [extract_examples_eq]
    exact List.length_take_le _ _
  · intro s hs
    rw [extract_definitions_eq] at hs
    obtain ⟨hl, hstr, hcue⟩ := mem_cueMatchedSentences (List.mem_of_mem_take hs)
    rw [hstr]
    exact ⟨hl, hcue⟩
  · intro s hs
    rw [extract_examples_eq] at hs
    obtain ⟨hl, hstr, hcue⟩ := mem_cueMatchedSentences (List.mem_of_mem_take hs)
    rw [hstr]
    exact ⟨hl, hcue⟩

/-- Witness for `extract_definitions_examples_spec` at the example context:
its first sentence is a returned definition of trimmed length > 20 matching a
cue. -/
theorem extract_definitions_examples_spec_witness :
    (extract_definitions psContext).length ≤ 3 ∧
    (20 < (strip psFirstSentence).length ∧
      definition_patterns.any (fun pat => regexSearchCI pat psFirstSentence) = true) := by
  have h := extract_definitions_examples_spec psContext
  exact ⟨h.1, h.2.2.1 psFirstSentence (by decide)⟩

/-- C8 counterexample: on the specification's worked example the sentence
selector does not return both sentences.  The only question term is
"photosynthesis" ("what" is an interrogative stop word and "process" does not
occur in the question), and the second sentence does not contain it. -/
theorem photosynthesis_example_counterexample :
    psSecondSentence ∉ extract_relevant_sentences psContext psQuestion ∧
    extract_relevant_sentences psContext psQuestion ≠ [psFirstSentence, psSecondSentence] := by
  refine ⟨by decide, by decide⟩

/-- C8 (amended): on the specification's worked example,
`extract_relevant_sentences` returns exactly the first sentence,
`extract_definitions` returns exactly the first sentence (cue "is defined
as"), and `extract_examples` returns exactly the second sentence (cue "for
example"). -/
theorem photosynthesis_example_spec :
    extract_relevant_sentences psContext psQuestion = [psFirstSentence] ∧
    extract_definitions psContext = [psFirstSentence] ∧
    extract_examples psContext = [psSecondSentence] := by
  refine ⟨by decide, by decide, by decide⟩

/-! ## The orchestrator -/

/-- C1: whenever the joined first-3 context trims to fewer than 50 characters
(including the empty case), `generate_answer` returns exactly the fixed
insufficient-text message — for every question and every remote behaviour, so
neither remote nor local generation can influence the result. -/
theorem generate_answer_insufficient (watsonx : Str → Str → Except Str (Option Str))
    (context_chunks : List Str) (question : Str)
    (h : (strip (joinStr ['\n'] (context_chunks.take 3))).length < 50) :
    generate_answer watsonx context_chunks question =
      "I couldn\x27t extract enough text from the PDF to answer your question. Please try with a different PDF or ensure the document contains readable text.".data := by
  have hc : ((joinStr ['\n'] (context_chunks.take 3)).isEmpty ||
      decide ((strip (joinStr ['\n'] (context_chunks.take 3))).length < 50)) = true := by
    simp [h]
  simp only [generate_answer]
  rw [if_pos hc]

/-- Witness for `generate_answer_insufficient`: a single short chunk, with a
remote path that would raise — the fixed message is returned anyway. -/
theorem generate_answer_insufficient_witness :
    generate_answer (fun _ _ => Except.error ("boom".data)) ["Short text.".data]
      ("Anything?".data) =
      "I couldn\x27t extract enough text from the PDF to answer your question. Please try with a different PDF or ensure the document contains readable text.".data :=
  generate_answer_insufficient _ _ _ (by decide)

/-- C2: `generate_answer` is a total function into strings, and any exception
raised inside the remote-then-local path (modelled as the remote outcome
`Except.error e`) is caught at the outermost level and converted into the
string "Error processing your question: {message}". -/
theorem generate_answer_catches_errors (watsonx : Str → Str → Except Str (Option Str))
    (context_chunks : List Str) (question e : Str)
    (hlen : 50 ≤ (strip (joinStr ['\n'] (context_chunks.take 3))).length)
    (herr : watsonx (joinStr ['\n'] (context_chunks.take 3)) question = Except.error e) :
    generate_answer watsonx context_chunks question =
      "Error processing your question: ".data ++ e := by
  have hc : ¬(((joinStr ['\n'] (context_chunks.take 3)).isEmpty ||
      decide ((strip (joinStr ['\n'] (context_chunks.take 3))).length < 50)) = true) := by
    simp only [Bool.or_eq_true, List.isEmpty_iff, decide_eq_true_eq]
    rintro (hnil | hlt)
    · rw [hnil] at hlen
      simp [strip] at hlen
    · omega
  simp only [generate_answer]
  rw [if_neg hc, herr]

/-- Witness for `generate_answer_catches_errors`: a long chunk and a remote
path raising "boom". -/
theorem generate_answer_catches_errors_witness :
    generate_answer (fun _ _ => Except.error ("boom".data))
      ["This chunk of text is certainly longer than fifty characters in total.".data]
      ("Anything?".data) =
      "Error processing your question: boom".data := by
  have h := generate_answer_catches_errors (fun _ _ => Except.error ("boom".data))
    ["This chunk of text is certainly longer than fifty characters in total.".data]
    ("Anything?".data) ("boom".data) (by decide) rfl
  exact h

/-- C3: when the remote adapter reports no answer (`ok none`, as it does in
particular whenever the client handle is unset), `generate_answer` returns
exactly the local composer's output on the same joined context and question. -/
theorem generate_answer_local_fallback {C : Type} (client : Option C)
    (api : Str → Except Str Str) (context_chunks : List Str) (question : Str)
    (hlen : 50 ≤ (strip (joinStr ['\n'] (context_chunks.take 3))).length)
    (hnone : generate_watsonx_answer client api (joinStr ['\n'] (context_chunks.take 3)) question =
      Except.ok none) :
    generate_answer (generate_watsonx_answer client api) context_chunks question =
      generate_detailed_answer (joinStr ['\n'] (context_chunks.take 3)) question := by
  have hc : ¬(((joinStr ['\n'] (context_chunks.take 3)).isEmpty ||
      decide ((strip (joinStr ['\n'] (context_chunks.take 3))).length < 50)) = true) := by
    simp only [Bool.or_eq_true, List.isEmpty_iff, decide_eq_true_eq]
    rintro (hnil | hlt)
    · rw [hnil] at hlen
      simp [strip] at hlen
    · omega
  simp only [generate_answer]
  rw [if_neg hc, hnone]

/-- Witness for `generate_answer_local_fallback`: with the client handle unset
the adapter returns absent and the local composer's output is returned. -/
theorem generate_answer_local_fallback_witness :
    generate_answer (generate_watsonx_answer (none : Option Unit) (fun p => Except.ok p))
      ["This chunk of text is certainly longer than fifty characters in total.".data]
      ("Anything?".data) =
      generate_detailed_answer
        (joinStr ['\n'] (["This chunk of text is certainly longer than fifty characters in total.".data].take 3))
        ("Anything?".data) :=
  generate_answer_local_fallback (none : Option Unit) (fun p => Except.ok p) _ _
    (by decide) rfl

/-! ## First-occurrence deduplication lemmas -/

theorem mem_of_dedupFirstAux {seen l : List Str} {t : Str}
    (h : t ∈ dedupFirstAux seen l) : t ∈ l ∧ t ∉ seen := by
  induction l generalizing seen with
  | nil => simp [dedupFirstAux] at h
  | cons w rest ih =>
    rw [dedupFirstAux] at h
    by_cases hw : w ∈ seen
    · rw [if_pos hw] at h
      obtain ⟨h1, h2⟩ := ih h
      exact ⟨List.mem_cons_of_mem _ h1, h2⟩
    · rw [if_neg hw] at h
      rcases List.mem_cons.mp h with rfl | h'
      · exact ⟨List.mem_cons_self _ _, hw⟩
      · obtain ⟨h1, h2⟩ := ih h'
        exact ⟨List.mem_cons_of_mem _ h1, fun hc => h2 (List.mem_cons_of_mem _ hc)⟩

theorem dedupFirstAux_mem {seen l : List Str} {t : Str}
    (hl : t ∈ l) (hs : t ∉ seen) : t ∈ dedupFirstAux seen l := by
  induction l generalizing seen with
  | nil => simp at hl
  | cons w rest ih =>
    rw [dedupFirstAux]
    by_cases hw : w ∈ seen
    · rw [if_pos hw]
      rcases List.mem_cons.mp hl with rfl | h'
      · exact absurd hw hs
      · exact ih h' hs
    · rw [if_neg hw]
      rcases List.mem_cons.mp hl with rfl | h'
      · exact List.mem_cons_self _ _
      · by_cases htw : t = w
        · subst htw
          exact List.mem_cons_self _ _
        · refine List.mem_cons_of_mem _ (ih h' ?_)
          intro hc
          rcases List.mem_cons.mp hc with h'' | h''
          · exact htw h''
          · exact hs h''

theorem mem_dedupFirst {l : List Str} {t : Str} : t ∈ dedupFirst l ↔ t ∈ l := by
  constructor
  · intro h
    exact (mem_of_dedupFirstAux h).1
  · intro h
    exact dedupFirstAux_mem h (by simp)

/-! ## C10: questions with no usable search term -/

set_option maxRecDepth 8192 in
/-- C10: if every length-≥-4 alphabetic word of the lower-cased question is an
interrogative stop word (in particular if there is no such word at all, as
for "Why?" or an empty question), then the matching path of
`extract_relevant_sentences` selects nothing and the zero-match fallback list
is returned; and whenever that list is empty too, `generate_detailed_answer`
delegates to the no-match composer `generate_comprehensive_fallback`. -/
theorem no_question_terms_spec (context question : Str)
    (h : ∀ t ∈ findWords (lower question), t ∈ question_stop_words) :
    extract_relevant_sentences context question = fallbackSentences context ∧
    (fallbackSentences context = [] →
      generate_detailed_answer context question =
        generate_comprehensive_fallback context question (extract_key_terms context)) := by
  have hqt : question_terms question = [] := by
    unfold question_terms
    rw [List.filter_eq_nil_iff]
    intro t ht
    have hmem : t ∈ findWords (lower question) := (mem_of_dedupFirstAux ht).1
    simp [h t hmem]
  have hM : matchedSentences context question = [] := by
    unfold matchedSentences
    rw [List.filter_eq_nil_iff]
    intro a _
    rw [hqt]
    simp
  have hfb : extract_relevant_sentences context question = fallbackSentences context := by
    rw [extract_relevant_sentences_eq, if_pos (by simp [List.isEmpty_iff, hM])]
  refine ⟨hfb, ?_⟩
  intro hnil
  have hrel : extract_relevant_sentences context question = [] := by
    rw [hfb, hnil]
  simp only [generate_detailed_answer]
  have hc : (([] : List Str).isEmpty = true) := rfl
  rw [hrel, if_pos hc]

/-- Witness for `no_question_terms_spec`: the question "Why?" has no usable
term, and a context whose sentences are all short has an empty fallback list,
so the no-match composer is used. -/
theorem no_question_terms_spec_witness :
    extract_relevant_sentences ("Tiny one. Also tiny. Very small.".data) ("Why?".data) =
      fallbackSentences ("Tiny one. Also tiny. Very small.".data) ∧
    generate_detailed_answer ("Tiny one. Also tiny. Very small.".data) ("Why?".data) =
      generate_comprehensive_fallback ("Tiny one. Also tiny. Very small.".data) ("Why?".data)
        (extract_key_terms ("Tiny one. Also tiny. Very small.".data)) := by
  have h := no_question_terms_spec ("Tiny one. Also tiny. Very small.".data) ("Why?".data)
    (by decide)
  exact ⟨h.1, h.2 (by decide)⟩

/-! ## C7: the remote-client handle -/

/-- C7 counterexample: after a failed initialization the handle is `none`,
and the very next getter call performs the initialization attempt again — a
now-succeeding attempt returns (and caches) a client.  So a failed
initialization is not cached as "unset for the remainder of the process":
the getter retries on every call until one succeeds. -/
theorem client_retry_counterexample :
    (get_watsonx_client (none : Option Nat) none).2 = none ∧
    (get_watsonx_client (some 0) ((get_watsonx_client (none : Option Nat) none).2)).1 = some 0 :=
  ⟨rfl, rfl⟩

/-- C7 (amended): a failed initialization leaves the handle `none`, which is
indistinguishable from "never initialized": while the handle is `none` every
getter call performs the initialization attempt and returns (and stores) its
outcome; only a successful initialization is cached, after which the attempt
is no longer made. -/
theorem get_watsonx_client_spec {C : Type} (attempt state : Option C) :
    (state = none → get_watsonx_client attempt state = (attempt, attempt)) ∧
    (∀ c, state = some c → get_watsonx_client attempt state = (some c, some c)) := by
  constructor
  · rintro rfl
    cases attempt <;> rfl
  · rintro c rfl
    rfl

/-- Witness for `get_watsonx_client_spec`: with the handle unset a succeeding
attempt is performed and cached; with the handle set the attempt is ignored. -/
theorem get_watsonx_client_spec_witness :
    get_watsonx_client (some 5) (none : Option Nat) = (some 5, some 5) ∧
    get_watsonx_client (none : Option Nat) (some 3) = (some 3, some 3) :=
  ⟨(get_watsonx_client_spec (some 5) none).1 rfl,
   (get_watsonx_client_spec none (some 3)).2 3 rfl⟩

/-! ## C9: the pattern cache -/

theorem lookupCache_append_some {l : List (Str × Nat)} {p : Str} {i : Nat}
    (h : lookupCache l p = some i) (l₂ : List (Str × Nat)) :
    lookupCache (l ++ l₂) p = some i := by
  induction l with
  | nil => simp [lookupCache] at h
  | cons e rest ih =>
    obtain ⟨q, j⟩ := e
    rw [List.cons_append, lookupCache]
    rw [lookupCache] at h
    by_cases hq : q = p
    · rw [if_pos hq] at h
      rw [if_pos hq]
      exact h
    · rw [if_neg hq] at h
      rw [if_neg hq]
      exact ih h

theorem lookupCache_append_new {l : List (Str × Nat)} {p : Str}
    (h : lookupCache l p = none) (i : Nat) :
    lookupCache (l ++ [(p, i)]) p = some i := by
  induction l with
  | nil => simp [lookupCache]
  | cons e rest ih =>
    obtain ⟨q, j⟩ := e
    rw [List.cons_append, lookupCache]
    rw [lookupCache] at h
    by_cases hq : q = p
    · rw [if_pos hq] at h
      simp at h
    · rw [if_neg hq] at h
      rw [if_neg hq]
      exact ih h

theorem get_cached_pattern_of_found {st : PatternCache} {p : Str} {i : Nat}
    (h : lookupCache st.cache p = some i) :
    get_cached_pattern p st = ((p, i), st) := by
  unfold get_cached_pattern
  rw [h]

theorem get_cached_pattern_cached (st : PatternCache) (p : Str) :
    lookupCache (get_cached_pattern p st).2.cache p = some (get_cached_pattern p st).1.2 ∧
    (get_cached_pattern p st).1.1 = p := by
  unfold get_cached_pattern
  cases h : lookupCache st.cache p with
  | some i => simp [h]
  | none => simp [h, lookupCache_append_new h]

theorem get_cached_pattern_preserves {st : PatternCache} {p : Str} {i : Nat}
    (h : lookupCache st.cache p = some i) (q : Str) :
    lookupCache ((get_cached_pattern q st).2).cache p = some i := by
  unfold get_cached_pattern
  cases hq : lookupCache st.cache q with
  | some j => simpa using h
  | none => simpa using lookupCache_append_some h _

theorem runPatternCalls_preserves {p : Str} {i : Nat} (qs : List Str) :
    ∀ st : PatternCache, lookupCache st.cache p = some i →
      lookupCache (runPatternCalls qs st).cache p = some i := by
  induction qs with
  | nil => intro st h; exact h
  | cons q rest ih =>
    intro st h
    rw [runPatternCalls, List.foldl_cons]
    exact ih _ (get_cached_pattern_preserves h q)

/-- C9: the pattern cache never returns two different compiled matchers for
the same source string: once a call has compiled (or found) the matcher for
`p`, any sequence of further cache operations on arbitrary pattern strings
leaves that entry untouched, and a later call for `p` returns the identical
cached matcher value — reference reuse, not recompilation — for the remainder
of the process. -/
theorem get_cached_pattern_stable (st : PatternCache) (p : Str) (qs : List Str) :
    (get_cached_pattern p (runPatternCalls qs (get_cached_pattern p st).2)).1 =
      (get_cached_pattern p st).1 := by
  have hc := get_cached_pattern_cached st p
  have hrun := runPatternCalls_preserves qs _ hc.1
  rw [get_cached_pattern_of_found hrun]
  exact Prod.ext hc.2.symm rfl

/-! ## C5: the key-term ranking -/

theorem mem_insertByCount {cnt : Str → Nat} {x z : Str} : ∀ {l : List Str},
    z ∈ insertByCount cnt x l ↔ z = x ∨ z ∈ l := by
  intro l
  induction l with
  | nil => simp [insertByCount]
  | cons y ys ih =>
    rw [insertByCount]
    by_cases hcy : cnt y ≤ cnt x
    · rw [if_pos hcy]
      simp [List.mem_cons]
    · rw [if_neg hcy]
      simp only [List.mem_cons, ih]
      tauto

theorem mem_sortByCountDesc {cnt : Str → Nat} {z : Str} : ∀ {l : List Str},
    z ∈ sortByCountDesc cnt l ↔ z ∈ l := by
  intro l
  induction l with
  | nil => simp [sortByCountDesc]
  | cons x xs ih =>
    rw [sortByCountDesc, mem_insertByCount]
    simp [ih]

theorem insertByCount_pairwise (cnt : Str → Nat) (r : Str → Str → Prop) (x : Str) :
    ∀ l : List Str, l.Pairwise (fun a b => cnt b < cnt a ∨ (cnt a = cnt b ∧ r a b)) →
      (∀ y ∈ l, cnt x = cnt y → r x y) →
      (insertByCount cnt x l).Pairwise (fun a b => cnt b < cnt a ∨ (cnt a = cnt b ∧ r a b)) := by
  intro l
  induction l with
  | nil =>
    intro _ _
    simp [insertByCount]
  | cons y ys ih =>
    intro hp hr
    rw [List.pairwise_cons] at hp
    rw [insertByCount]
    by_cases hcy : cnt y ≤ cnt x
    · rw [if_pos hcy]
      rw [List.pairwise_cons]
      refine ⟨?_, List.pairwise_cons.mpr hp⟩
      intro z hz
      rcases List.mem_cons.mp hz with rfl | hzys
      · rcases Nat.lt_or_ge (cnt z) (cnt x) with hlt | hge
        · exact Or.inl hlt
        · have hxz : cnt x = cnt z := by omega
          exact Or.inr ⟨hxz, hr z (List.mem_cons_self _ _) hxz⟩
      · rcases hp.1 z hzys with hlt | ⟨heq, _⟩
        · exact Or.inl (by omega)
        · rcases Nat.lt_or_ge (cnt z) (cnt x) with hlt2 | hge2
          · exact Or.inl hlt2
          · have hxz : cnt x = cnt z := by omega
            exact Or.inr ⟨hxz, hr z (List.mem_cons_of_mem _ hzys) hxz⟩
    · rw [if_neg hcy]
      rw [List.pairwise_cons]
      constructor
      · intro z hz
        rcases mem_insertByCount.mp hz with rfl | hzys
        · exact Or.inl (by omega)
        · exact hp.1 z hzys
      · exact ih hp.2 (fun y' hy' he => hr y' (List.mem_cons_of_mem _ hy') he)

theorem sortByCountDesc_pairwise (cnt : Str → Nat) (r : Str → Str → Prop) :
    ∀ l : List Str, l.Pairwise r →
      (sortByCountDesc cnt l).Pairwise (fun a b => cnt b < cnt a ∨ (cnt a = cnt b ∧ r a b)) := by
  intro l
  induction l with
  | nil =>
    intro _
    simp [sortByCountDesc]
  | cons x xs ih =>
    intro hp
    rw [List.pairwise_cons] at hp
    rw [sortByCountDesc]
    refine insertByCount_pairwise cnt r x _ (ih hp.2) ?_
    intro y hy _
    exact hp.1 y (mem_sortByCountDesc.mp hy)

theorem idxOfStr_cons_self (w : Str) (rest : List Str) : idxOfStr (w :: rest) w = 0 := by
  simp [idxOfStr]

theorem idxOfStr_cons_ne {w t : Str} (rest : List Str) (h : w ≠ t) :
    idxOfStr (w :: rest) t = idxOfStr rest t + 1 := by
  simp [idxOfStr, h]

theorem dedupFirstAux_pairwise_idxOf (l : List Str) :
    ∀ seen, (dedupFirstAux seen l).Pairwise
      (fun a b => idxOfStr l a < idxOfStr l b) := by
  induction l with
  | nil =>
    intro seen
    simp [dedupFirstAux]
  | cons w rest ih =>
    intro seen
    rw [dedupFirstAux]
    by_cases hw : w ∈ seen
    · rw [if_pos hw]
      refine List.Pairwise.imp_of_mem ?_ (ih seen)
      intro a b ha hb hab
      have ha' := mem_of_dedupFirstAux ha
      have hb' := mem_of_dedupFirstAux hb
      have haw : w ≠ a := fun h => ha'.2 (by rw [← h]; exact hw)
      have hbw : w ≠ b := fun h => hb'.2 (by rw [← h]; exact hw)
      rw [idxOfStr_cons_ne _ haw, idxOfStr_cons_ne _ hbw]
      omega
    · rw [if_neg hw]
      rw [List.pairwise_cons]
      constructor
      · intro b hb
        have hb' := mem_of_dedupFirstAux hb
        have hbw : w ≠ b := fun h => hb'.2 (by rw [← h]; exact List.mem_cons_self _ _)
        rw [idxOfStr_cons_self, idxOfStr_cons_ne _ hbw]
        exact Nat.succ_pos _
      · refine List.Pairwise.imp_of_mem ?_ (ih (w :: seen))
        intro a b ha hb hab
        have ha' := mem_of_dedupFirstAux ha
        have hb' := mem_of_dedupFirstAux hb
        have haw : w ≠ a := fun h => ha'.2 (by rw [← h]; exact List.mem_cons_self _ _)
        have hbw : w ≠ b := fun h => hb'.2 (by rw [← h]; exact List.mem_cons_self _ _)
        rw [idxOfStr_cons_ne _ haw, idxOfStr_cons_ne _ hbw]
        omega

theorem findWordsAux_mem {s : Str} : ∀ {run : Str} {ok : Bool},
    (∀ c ∈ run, isAlphaChar c = true) →
    ∀ w ∈ findWordsAux s run ok,
      4 ≤ w.length ∧ ∀ c ∈ w, isAlphaChar c = true ∧ (c ∈ run ∨ c ∈ s) := by
  induction s with
  | nil =>
    intro run ok hrun w hw
    rw [findWordsAux] at hw
    by_cases hc : (ok && decide (4 ≤ run.length)) = true
    · rw [if_pos hc] at hw
      simp only [List.mem_singleton] at hw
      subst hw
      simp only [Bool.and_eq_true, decide_eq_true_eq] at hc
      refine ⟨by simpa using hc.2, ?_⟩
      intro c hcm
      rw [List.mem_reverse] at hcm
      exact ⟨hrun c hcm, Or.inl hcm⟩
    · rw [if_neg hc] at hw
      simp at hw
  | cons c cs ih =>
    intro run ok hrun w hw
    rw [findWordsAux] at hw
    by_cases hca : isAlphaChar c = true
    · rw [if_pos hca] at hw
      have hrun' : ∀ d ∈ c :: run, isAlphaChar d = true := by
        intro d hd
        rcases List.mem_cons.mp hd with rfl | hd'
        · exact hca
        · exact hrun d hd'
      obtain ⟨hlen, hch⟩ := ih hrun' w hw
      refine ⟨hlen, ?_⟩
      intro d hd
      obtain ⟨hal, hmem⟩ := hch d hd
      refine ⟨hal, ?_⟩
      rcases hmem with hm | hm
      · rcases List.mem_cons.mp hm with rfl | hm'
        · exact Or.inr (List.mem_cons_self _ _)
        · exact Or.inl hm'
      · exact Or.inr (List.mem_cons_of_mem _ hm)
    · rw [if_neg hca] at hw
      rw [List.mem_append] at hw
      rcases hw with hw | hw
      · by_cases hcond : (ok && decide (4 ≤ run.length) && !isWordChar c) = true
        · rw [if_pos hcond] at hw
          simp only [List.mem_singleton] at hw
          subst hw
          simp only [Bool.and_eq_true, decide_eq_true_eq] at hcond
          refine ⟨by simpa using hcond.1.2, ?_⟩
          intro d hd
          rw [List.mem_reverse] at hd
          exact ⟨hrun d hd, Or.inl hd⟩
        · rw [if_neg hcond] at hw
          simp at hw
      · obtain ⟨hlen, hch⟩ := ih (by intro d hd; simp at hd) w hw
        refine ⟨hlen, ?_⟩
        intro d hd
        obtain ⟨hal, hmem⟩ := hch d hd
        rcases hmem with hm | hm
        · simp at hm
        · exact ⟨hal, Or.inr (List.mem_cons_of_mem _ hm)⟩

theorem findWords_mem {text w : Str} (hw : w ∈ findWords text) :
    4 ≤ w.length ∧ ∀ c ∈ w, isAlphaChar c = true ∧ c ∈ text := by
  obtain ⟨hlen, hch⟩ := findWordsAux_mem (by simp) w hw
  refine ⟨hlen, fun c hc => ?_⟩
  obtain ⟨hal, hmem⟩ := hch c hc
  rcases hmem with hm | hm
  · simp at hm
  · exact ⟨hal, hm⟩

theorem lowerChar_of_isAlpha {c : Char} (h : isAlphaChar (lowerChar c) = true) :
    'a' ≤ lowerChar c ∧ lowerChar c ≤ 'z' := by
  unfold lowerChar at h ⊢
  by_cases hup : ('A' ≤ c && c ≤ 'Z') = true
  · rw [if_pos hup] at h ⊢
    simp only [Bool.and_eq_true, decide_eq_true_eq] at hup
    have h65 : ('A').toNat ≤ c.toNat := char_le_iff_toNat.mp hup.1
    have h90 : c.toNat ≤ ('Z').toNat := char_le_iff_toNat.mp hup.2
    have eA : ('A').toNat = 65 := rfl
    have eZ : ('Z').toNat = 90 := rfl
    have hval : (c.toNat + 32).isValidChar := Or.inl (by omega)
    have htn := toNat_ofNat_valid hval
    have ea : ('a').toNat = 97 := rfl
    have ez : ('z').toNat = 122 := rfl
    constructor
    · rw [char_le_iff_toNat, htn]
      omega
    · rw [char_le_iff_toNat, htn]
      omega
  · rw [if_neg hup] at h ⊢
    unfold isAlphaChar at h
    simp only [Bool.or_eq_true] at h
    rcases h with h | h
    · simpa using h
    · exact absurd h hup

theorem mem_lower_lowercase {text : Str} {c : Char} (hc : c ∈ lower text)
    (hal : isAlphaChar c = true) : 'a' ≤ c ∧ c ≤ 'z' := by
  unfold lower at hc
  rw [List.mem_map] at hc
  obtain ⟨d, _, rfl⟩ := hc
  exact lowerChar_of_isAlpha hal

theorem extract_key_terms_eq (text : Str) :
    extract_key_terms text =
      (sortByCountDesc (fun w => (filteredWords text).count w)
        (dedupFirst (filteredWords text))).take 10 := rfl

theorem mem_extract_key_terms {text t : Str} (ht : t ∈ extract_key_terms text) :
    t ∈ filteredWords text := by
  rw [extract_key_terms_eq] at ht
  have h1 := List.mem_of_mem_take ht
  rw [mem_sortByCountDesc] at h1
  exact mem_dedupFirst.mp h1

/-- C5: `extract_key_terms` returns at most 10 terms; every returned term
consists only of lower-case letters, has length at least 4 and is not a stop
word; the returned list is ordered by strictly descending frequency among the
qualifying tokens, with ties broken by order of first occurrence in the text;
and every qualifying token left out is at most as frequent as every returned
term (on equal frequency it first occurs later) — the returned terms are the
most frequent qualifying tokens. -/
theorem extract_key_terms_spec (text : Str) :
    (extract_key_terms text).length ≤ 10 ∧
    (∀ t ∈ extract_key_terms text,
      (∀ c ∈ t, 'a' ≤ c ∧ c ≤ 'z') ∧ 4 ≤ t.length ∧ t ∉ key_term_stop_words) ∧
    (extract_key_terms text).Pairwise (fun a b =>
      (filteredWords text).count b < (filteredWords text).count a ∨
      ((filteredWords text).count a = (filteredWords text).count b ∧
        idxOfStr (filteredWords text) a < idxOfStr (filteredWords text) b)) ∧
    (∀ k ∈ filteredWords text, k ∉ extract_key_terms text →
      ∀ t ∈ extract_key_terms text,
        (filteredWords text).count k < (filteredWords text).count t ∨
        ((filteredWords text).count t = (filteredWords text).count k ∧
          idxOfStr (filteredWords text) t < idxOfStr (filteredWords text) k)) := by
  have hkeys := dedupFirstAux_pairwise_idxOf (filteredWords text) []
  have hsorted := sortByCountDesc_pairwise (fun w => (filteredWords text).count w)
    (fun a b => idxOfStr (filteredWords text) a < idxOfStr (filteredWords text) b)
    (dedupFirst (filteredWords text)) hkeys
  refine ⟨?_, ?_, ?_, ?_⟩
  · rw [extract_key_terms_eq]
    exact List.length_take_le _ _
  · intro t ht
    have hf := mem_extract_key_terms ht
    unfold filteredWords at hf
    rw [List.mem_filter] at hf
    obtain ⟨hfw, hstop⟩ := hf
    obtain ⟨hlen, hch⟩ := findWords_mem hfw
    refine ⟨?_, hlen, by simpa using hstop⟩
    intro c hc
    obtain ⟨hal, hmem⟩ := hch c hc
    exact mem_lower_lowercase hmem hal
  · rw [extract_key_terms_eq]
    exact List.Pairwise.sublist (List.take_sublist _ _) hsorted
  · intro k hk hknot t ht
    rw [extract_key_terms_eq] at hknot ht
    have hkS : k ∈ sortByCountDesc (fun w => (filteredWords text).count w)
        (dedupFirst (filteredWords text)) :=
      mem_sortByCountDesc.mpr (mem_dedupFirst.mpr hk)
    rw [← List.take_append_drop 10 (sortByCountDesc (fun w => (filteredWords text).count w)
      (dedupFirst (filteredWords text)))] at hkS hsorted
    rw [List.mem_append] at hkS
    rcases hkS with hkT | hkD
    · exact absurd hkT hknot
    · rw [List.pairwise_append] at hsorted
      exact hsorted.2.2 t ht k hkD

/-- Witness for `extract_key_terms_spec`: a text with eleven distinct
qualifying words, one of them repeated.  The repeated word is returned (and
checked lower-case alphabetic, long enough, not a stop word) and the eleventh
key is left out in favour of the more frequent one. -/
theorem extract_key_terms_spec_witness :
    (extract_key_terms
      ("alpha alpha bravo candy delta eagle fancy grape hotel ingot jolly kilot".data)).length ≤ 10 ∧
    ((∀ c ∈ ("alpha".data : Str), 'a' ≤ c ∧ c ≤ 'z') ∧ 4 ≤ ("alpha".data : Str).length ∧
      ("alpha".data : Str) ∉ key_term_stop_words) ∧
    ((filteredWords
        ("alpha alpha bravo candy delta eagle fancy grape hotel ingot jolly kilot".data)).count
          ("kilot".data) <
      (filteredWords
        ("alpha alpha bravo candy delta eagle fancy grape hotel ingot jolly kilot".data)).count
          ("alpha".data) ∨
      ((filteredWords
          ("alpha alpha bravo candy delta eagle fancy grape hotel ingot jolly kilot".data)).count
            ("alpha".data) =
        (filteredWords
          ("alpha alpha bravo candy delta eagle fancy grape hotel ingot jolly kilot".data)).count
            ("kilot".data) ∧
        idxOfStr (filteredWords
          ("alpha alpha bravo candy delta eagle fancy grape hotel ingot jolly kilot".data))
            ("alpha".data) <
        idxOfStr (filteredWords
          ("alpha alpha bravo candy delta eagle fancy grape hotel ingot jolly kilot".data))
            ("kilot".data))) := by
  have h := extract_key_terms_spec
    ("alpha alpha bravo candy delta eagle fancy grape hotel ingot jolly kilot".data)
  refine ⟨h.1, h.2.1 ("alpha".data) (by decide), ?_⟩
  exact h.2.2.2 ("kilot".data) (by decide) (by decide) ("alpha".data) (by decide)
